import Mathlib

set_option maxHeartbeats 1000000

namespace SjtuAeroPost

/-!
Shallow embedding of `src/cfdppparser.py` (class `CFDppParser`).

Text files are modelled line by line.  A line of the run log is a `LogLine`:
the substring tests performed by the Python code (`"aero_pres" in line`,
`"mbcons" in line`, `"# No-slip adiabatic wall" in line`, ...) become boolean
fields, the raw text (used by `list.index`, which compares lines by string
equality) is kept in `raw`, and `line.split()` becomes the token list `toks`.
A token carries the value Python's `float(tok)` / `int(tok)` would produce.

Python exceptions caught by the `except`/`exit(1)` blocks of the source are
modelled by `Except Unit`: `.error ()` is an aborted extraction.
Python list indexing `l[i]` (including wrap-around for negative `i`, and
`IndexError` when out of range) is modelled by `pyGet`.
-/

/-- Results of Python `float(tok)` (field `r`) and `int(tok)` (field `z`) on one
whitespace-separated token of a line. -/
structure Tok where
  r : ℝ
  z : Int

/-- The three-element Python lists (`[0.0, 0.0, 0.0]`) that hold velocities,
forces, moments and the moment-reference origin. -/
@[ext]
structure Vec3 where
  x : ℝ
  y : ℝ
  z : ℝ

/-- Python indexing `v[i]` on a three-element list: indices `0,1,2` directly,
negative indices `-1,-2,-3` wrap from the end, anything else is `IndexError`. -/
def Vec3.pyGet (v : Vec3) (i : Int) : Option ℝ :=
  if i = 0 ∨ i = -3 then some v.x
  else if i = 1 ∨ i = -2 then some v.y
  else if i = 2 ∨ i = -1 then some v.z
  else none

def Vec3.addv (a b : Vec3) : Vec3 := ⟨a.x + b.x, a.y + b.y, a.z + b.z⟩

def Vec3.subv (a b : Vec3) : Vec3 := ⟨a.x - b.x, a.y - b.y, a.z - b.z⟩

def Vec3.zero : Vec3 := ⟨0, 0, 0⟩

/-- Python indexing `l[i]` on an arbitrary list: non-negative indices read
from the front, negative indices wrap from the end, and an index that is out
of range either way raises `IndexError` (here: `none`). -/
def pyGet {α : Type _} (l : List α) (i : Int) : Option α :=
  if 0 ≤ i then l.get? i.toNat
  else if 0 ≤ (l.length : Int) + i then l.get? ((l.length : Int) + i).toNat
  else none

/-- Enumeration `SymmetryPlaneType` of the source. -/
inductive SymmetryPlaneType where
  | none
  | xyPlane
  | xzPlane
deriving DecidableEq

/-- One line of the case log file `<case>/<case>.log`. -/
structure LogLine where
  /-- the raw text of the line (`list.index` compares lines by it) -/
  raw : String
  /-- `"aero_pres" in line` -/
  hasAeroPres : Bool
  /-- `"aero_temp" in line` -/
  hasAeroTemp : Bool
  /-- `"aero_u" in line` -/
  hasAeroU : Bool
  /-- `"aero_v" in line` -/
  hasAeroV : Bool
  /-- `"aero_w" in line` -/
  hasAeroW : Bool
  /-- `"mbcons" in line` -/
  hasMbcons : Bool
  /-- `"# No-slip adiabatic wall" in line` -/
  hasNoSlip : Bool
  /-- `"cldriver_controls" in line` -/
  hasCldriver : Bool
  /-- `line.split()` -/
  toks : List Tok

/-- One token of a geometry file line: the raw text (compared against `"xy"`
by the symmetry-plane branch) and the value `float(tok)` would give. -/
structure GeomTok where
  s : String
  r : ℝ

/-- One line of the geometry file `infout1f.inp` / `infout1f.out`. -/
structure GeomLine where
  /-- `"alpha" in line` -/
  hasAlpha : Bool
  /-- `"axref" in line` -/
  hasAxref : Bool
  /-- `"lxref" in line` -/
  hasLxref : Bool
  /-- `"xcen" in line` -/
  hasXcen : Bool
  /-- `"ycen" in line` -/
  hasYcen : Bool
  /-- `"zcen" in line` -/
  hasZcen : Bool
  /-- `"plane" in line` -/
  hasPlane : Bool
  /-- `line.split()` -/
  toks : List GeomTok

/-- The mutable attributes of a `CFDppParser` object that take part in the
extraction pass (attributes that no claim touches — the file-name strings,
`div_moment`, `xCenterOfPressure`, `idUpper`, `idLower` — are omitted).
`SymmPlaneType` models the attribute of that name created dynamically by
`__ReadRefGeomVals`; it does not exist before the first assignment, hence
the `Option`. -/
@[ext]
structure PState where
  symmPlane : SymmetryPlaneType
  indexLift : Int
  indexDrag : Int
  indexSide : Int
  refPres : ℝ
  refTemp : ℝ
  refVels : Vec3
  refVmag : ℝ
  refDens : ℝ
  refMach : ℝ
  numBounds : Int
  noSlipWalls : List Int
  alpha : ℝ
  refArea : ℝ
  refLength : ℝ
  refOrign : Vec3
  force_tol : Vec3
  force_inv : Vec3
  force_vis : Vec3
  moment : Vec3
  SymmPlaneType : Option SymmetryPlaneType

/-- Attribute values set by `CFDppParser.__init__`. -/
def initState : PState where
  symmPlane := SymmetryPlaneType.none
  indexLift := -99
  indexDrag := -99
  indexSide := -99
  refPres := 0
  refTemp := 0
  refVels := Vec3.zero
  refVmag := 0
  refDens := 0
  refMach := 0
  numBounds := 0
  noSlipWalls := []
  alpha := 0
  refArea := 0
  refLength := 0
  refOrign := Vec3.zero
  force_tol := Vec3.zero
  force_inv := Vec3.zero
  force_vis := Vec3.zero
  moment := Vec3.zero
  SymmPlaneType := Option.none

/-- Path `self.logFileName = caseName + "/" + caseName + ".log"`. -/
def logFileName (c : String) : String := c ++ "/" ++ c ++ ".log"

/-- Path `self.info1FileName = caseName + "/mcfd.info1"`. -/
def info1FileName (c : String) : String := c ++ "/mcfd.info1"

/-- Path `self.infinFileName = caseName + "/infout1f.inp"`. -/
def infinFileName (c : String) : String := c ++ "/infout1f.inp"

/-- Path `self.infoutFileName = caseName + "/infout1f.out"`. -/
def infoutFileName (c : String) : String := c ++ "/infout1f.out"

/-- Model of `CFDppParser.__Validate`, over an abstract filesystem `ex` telling which
paths exist (`os.path.exists`).  The source sequentially clears an
`isValidated` flag (printing the missing path) and returns the flag. -/
def Validate (ex : String → Bool) (c : String) : Bool :=
  if !ex c then false
  else if !ex (logFileName c) then false
  else if !ex (info1FileName c) then false
  else if !ex (infinFileName c) && !ex (infoutFileName c) then false
  else true

/-- Model of `CFDppParser.__init__`: it calls `self.__Validate()` but discards the
returned flag (`## validate input files` is the only comment there), then
unconditionally initializes every attribute; it never raises.  The `Except`
result records whether construction can fail — it cannot. -/
def initParser (ex : String → Bool) (c : String) : Except Unit PState :=
  let _ := Validate ex c
  Except.ok initState

/-- Value of `line.split()[2]` as a float.  Every call site guards with
`len(line.split()) == 3`, so the `none` fallback is unreachable there. -/
def third (l : LogLine) : ℝ :=
  match l.toks.get? 2 with
  | some t => t.r
  | Option.none => 0

/-- Model of `if "aero_pres" in line and len(line.split()) == 3: self.refPres = ...`. -/
def setPres (s : PState) (l : LogLine) : PState :=
  if l.hasAeroPres && l.toks.length == 3 then { s with refPres := third l } else s

/-- Model of `if "aero_temp" in line and len(line.split()) == 3: self.refTemp = ...`. -/
def setTemp (s : PState) (l : LogLine) : PState :=
  if l.hasAeroTemp && l.toks.length == 3 then { s with refTemp := third l } else s

/-- Model of `if "aero_u" in line and len(line.split()) == 3: self.refVels[0] = ...`. -/
def setU (s : PState) (l : LogLine) : PState :=
  if l.hasAeroU && l.toks.length == 3 then
    { s with refVels := { s.refVels with x := third l } } else s

/-- Model of `if "aero_v" in line ...: self.refVels[1] = ...`. -/
def setV (s : PState) (l : LogLine) : PState :=
  if l.hasAeroV && l.toks.length == 3 then
    { s with refVels := { s.refVels with y := third l } } else s

/-- Model of `if "aero_w" in line ...: self.refVels[2] = ...`. -/
def setW (s : PState) (l : LogLine) : PState :=
  if l.hasAeroW && l.toks.length == 3 then
    { s with refVels := { s.refVels with z := third l } } else s

/-- Body of the scanning loop of `CFDppParser.__ReadRefVals`: five independent
`if`s, applied in source order. -/
def refValsStep (s : PState) (l : LogLine) : PState :=
  setW (setV (setU (setTemp (setPres s l) l) l) l) l

/-- Tail of `CFDppParser.__ReadRefVals` after the scan: the magnitude loop
(`self.refVmag += vel*vel` for the three components, starting from the
current `refVmag`, then `math.sqrt`), the density `refPres/287.0/refTemp`,
and the Mach number.  `math.sqrt` of a negative raises `ValueError` and a
division by `0.0` raises `ZeroDivisionError`; both are caught by the
`except` block, which calls `exit(1)` — modelled as `.error ()`.  When
`refTemp > 0` the sound speed `sqrt(1.4*287*refTemp)` is positive, so the
final division cannot raise. -/
noncomputable def refValsFinish (s : PState) : Except Unit PState :=
  if s.refVmag + s.refVels.x * s.refVels.x + s.refVels.y * s.refVels.y
       + s.refVels.z * s.refVels.z < 0 then Except.error ()
  else if s.refTemp = 0 then Except.error ()
  else if s.refTemp < 0 then Except.error ()
  else Except.ok { s with
    refVmag := Real.sqrt (s.refVmag + s.refVels.x * s.refVels.x
      + s.refVels.y * s.refVels.y + s.refVels.z * s.refVels.z)
    refDens := s.refPres / 287 / s.refTemp
    refMach := Real.sqrt (s.refVmag + s.refVels.x * s.refVels.x
      + s.refVels.y * s.refVels.y + s.refVels.z * s.refVels.z)
      / Real.sqrt (1.4 * 287 * s.refTemp) }

/-- Model of `CFDppParser.__ReadRefVals`. -/
noncomputable def readRefVals (st : PState) (lines : List LogLine) : Except Unit PState :=
  refValsFinish (lines.foldl refValsStep st)

/-- Python `lines.index(line, start, len(lines))`: the position of the first
line at index `≥ start` whose text equals `line`'s; `none` models the
`ValueError` raised when there is no such line. -/
def indexFrom (all : List LogLine) (l : LogLine) (start : Nat) : Option Nat :=
  (List.range all.length).find? fun i =>
    decide (start ≤ i) && ((all.get? i).map LogLine.raw == some l.raw)

/-- First loop of `CFDppParser.__ReadBcInfos`: the first line containing
`"mbcons"` with exactly three fields sets `numBounds` to its third field
(as an int) and breaks; with no such line `numBounds` keeps its value `d`. -/
def mbconsScan (lines : List LogLine) (d : Int) : Int :=
  match lines.find? (fun l => l.hasMbcons && l.toks.length == 3) with
  | some l =>
    match l.toks.get? 2 with
    | some t => t.z
    | Option.none => d
  | Option.none => d

/-- Second loop of `CFDppParser.__ReadBcInfos`: for every line containing the
no-slip marker, locate it with `lines.index(line, staIndex, len(lines))`,
read `lines[staIndex-2].split()[1]` (Python indexing: a negative position
wraps around to the end of the file) as an int, append it, and resume the
index search one past the match.  `ValueError` from a failed search and
`IndexError` from a missing line or token abort with `exit(1)`. -/
def bcScan (all : List LogLine) : List LogLine → Nat → List Int → Except Unit (List Int)
  | [], _, acc => Except.ok acc
  | l :: rest, sta, acc =>
    if l.hasNoSlip then
      match indexFrom all l sta with
      | Option.none => Except.error ()
      | some i =>
        match pyGet all ((i : Int) - 2) with
        | Option.none => Except.error ()
        | some wl =>
          match wl.toks.get? 1 with
          | Option.none => Except.error ()
          | some t => bcScan all rest (i + 1) (acc ++ [t.z])
    else bcScan all rest sta acc

/-- Model of `CFDppParser.__ReadBcInfos`: sets `numBounds`, then appends the wall ids
found by the marker scan to the existing `noSlipWalls` list. -/
def readBcInfos (st : PState) (lines : List LogLine) : Except Unit PState :=
  match bcScan lines lines 0 st.noSlipWalls with
  | Except.error e => Except.error e
  | Except.ok walls =>
    Except.ok { st with numBounds := mbconsScan lines st.numBounds, noSlipWalls := walls }

/-- Model of `CFDppParser.IsClDriverCase`: does any log line contain
`"cldriver_controls"`. -/
def IsClDriverCase (log : List LogLine) : Bool :=
  log.any fun l => l.hasCldriver

/-- One keyed assignment of `CFDppParser.__ReadRefGeomVals`: when the key
substring occurs in the line, `float(line.split()[1])` is stored through
`upd`; a missing second token is an `IndexError` (caught → `exit(1)`). -/
def setKey (flag : Bool) (o : Option GeomTok) (upd : PState → ℝ → PState) (s : PState) :
    Except Unit PState :=
  if flag then
    match o with
    | some t => Except.ok (upd s t.r)
    | Option.none => Except.error ()
  else Except.ok s

/-- The `"plane"` branch of `CFDppParser.__ReadRefGeomVals`: `line.split()[1]`
is compared against `"xy"`; the match assigns the (new) attribute
`SymmPlaneType` and the three axis indices — `(drag,lift,side) = (0,1,2)`
for `"xy"` and `(0,2,1)` for anything else. -/
def planeKey (l : GeomLine) (s : PState) : Except Unit PState :=
  if l.hasPlane then
    match l.toks.get? 1 with
    | some t =>
      if t.s = "xy" then
        Except.ok { s with SymmPlaneType := some SymmetryPlaneType.xyPlane,
                           indexDrag := 0, indexLift := 1, indexSide := 2 }
      else
        Except.ok { s with SymmPlaneType := some SymmetryPlaneType.xzPlane,
                           indexDrag := 0, indexLift := 2, indexSide := 1 }
    | Option.none => Except.error ()
  else Except.ok s

/-- The six scalar-keyed assignments of `CFDppParser.__ReadRefGeomVals`, in
source order. -/
def geomScalars (l : GeomLine) (s : PState) : Except Unit PState := do
  let s ← setKey l.hasAlpha (l.toks.get? 1) (fun s v => { s with alpha := v }) s
  let s ← setKey l.hasAxref (l.toks.get? 1) (fun s v => { s with refArea := v }) s
  let s ← setKey l.hasLxref (l.toks.get? 1) (fun s v => { s with refLength := v }) s
  let s ← setKey l.hasXcen (l.toks.get? 1)
            (fun s v => { s with refOrign := { s.refOrign with x := v } }) s
  let s ← setKey l.hasYcen (l.toks.get? 1)
            (fun s v => { s with refOrign := { s.refOrign with y := v } }) s
  setKey l.hasZcen (l.toks.get? 1)
            (fun s v => { s with refOrign := { s.refOrign with z := v } }) s

/-- Body of the line loop of `CFDppParser.__ReadRefGeomVals`: seven
independent `if`s, the `"plane"` branch last. -/
def geomStep (s : PState) (l : GeomLine) : Except Unit PState := do
  let s ← geomScalars l s
  planeKey l s

/-- The line loop of `CFDppParser.__ReadRefGeomVals` over the selected file. -/
def readRefGeomValsFile (st : PState) (lines : List GeomLine) : Except Unit PState :=
  lines.foldlM geomStep st

/-- Model of `CFDppParser.__ReadRefGeomVals`: reads `infout1f.out` for a CL-driver
case (the log contains the control-block marker), else `infout1f.inp`. -/
def readRefGeomVals (st : PState) (log : List LogLine) (inp out : List GeomLine) :
    Except Unit PState :=
  readRefGeomValsFile st (if IsClDriverCase log then out else inp)

/-- The three force vectors and the moment vector of one 23-line block of
`mcfd.info1`, as read by `CFDppParser.__ReadForces`. -/
@[ext]
structure Loads where
  ft : Vec3
  fi : Vec3
  fv : Vec3
  mo : Vec3

def exceptOf {α : Type _} (o : Option α) : Except Unit α :=
  match o with
  | some a => Except.ok a
  | Option.none => Except.error ()

/-- The nine reads of one boundary block of `mcfd.info1`: lines
`blockIndex+3,+4,+5` give the x/y/z force components (columns 3/4/5 =
total/inviscid/viscous), lines `blockIndex+6,+7,+8` give the moment
components (column 3).  Any out-of-range line or missing column is an
`IndexError` (→ `exit(1)`). -/
def blockRead (lines : List (List Tok)) (blockIndex : Int) : Except Unit Loads := do
  let l3 ← exceptOf (pyGet lines (blockIndex + 3))
  let fxt ← exceptOf (l3.get? 2)
  let fxi ← exceptOf (l3.get? 3)
  let fxv ← exceptOf (l3.get? 4)
  let l4 ← exceptOf (pyGet lines (blockIndex + 4))
  let fyt ← exceptOf (l4.get? 2)
  let fyi ← exceptOf (l4.get? 3)
  let fyv ← exceptOf (l4.get? 4)
  let l5 ← exceptOf (pyGet lines (blockIndex + 5))
  let fzt ← exceptOf (l5.get? 2)
  let fzi ← exceptOf (l5.get? 3)
  let fzv ← exceptOf (l5.get? 4)
  let l6 ← exceptOf (pyGet lines (blockIndex + 6))
  let mx ← exceptOf (l6.get? 2)
  let l7 ← exceptOf (pyGet lines (blockIndex + 7))
  let my ← exceptOf (l7.get? 2)
  let l8 ← exceptOf (pyGet lines (blockIndex + 8))
  let mz ← exceptOf (l8.get? 2)
  Except.ok ⟨⟨fxt.r, fyt.r, fzt.r⟩, ⟨fxi.r, fyi.r, fzi.r⟩, ⟨fxv.r, fyv.r, fzv.r⟩,
             ⟨mx.r, my.r, mz.r⟩⟩

/-- Accumulation `+=` of one block's values into the four load vectors. -/
def addLoads (s : PState) (c : Loads) : PState :=
  { s with force_tol := s.force_tol.addv c.ft
           force_inv := s.force_inv.addv c.fi
           force_vis := s.force_vis.addv c.fv
           moment := s.moment.addv c.mo }

/-- The four load vectors of a parser state, as one record. -/
def loadsOf (s : PState) : Loads := ⟨s.force_tol, s.force_inv, s.force_vis, s.moment⟩

def Loads.addL (a b : Loads) : Loads := ⟨a.ft.addv b.ft, a.fi.addv b.fi, a.fv.addv b.fv, a.mo.addv b.mo⟩

def Loads.subL (a b : Loads) : Loads := ⟨a.ft.subv b.ft, a.fi.subv b.fi, a.fv.subv b.fv, a.mo.subv b.mo⟩

/-- The axis-index triple `(indexDrag, indexLift, indexSide)`. -/
def tripleOf (s : PState) : Int × Int × Int := (s.indexDrag, s.indexLift, s.indexSide)

/-- One iteration of the boundary loop of `CFDppParser.__ReadForces`:
boundary `ibc` (0-based) contributes exactly when `ibc+1` is a member of
`noSlipWalls`. -/
def forcesStep (lines : List (List Tok)) (staIndex : Int) (s : PState) (ibc : Nat) :
    Except Unit PState :=
  if ((ibc : Int) + 1) ∈ s.noSlipWalls then do
    let c ← blockRead lines (staIndex + (ibc : Int) * 23)
    Except.ok (addLoads s c)
  else Except.ok s

/-- Model of `CFDppParser.__ReadForces`: `staIndex = len(lines) - 23*numBounds + 1`
(no range check — a negative value silently wraps around through Python
indexing), then the loop `for ibc in range(numBounds)`. -/
def readForces (st : PState) (lines : List (List Tok)) : Except Unit PState :=
  let staIndex : Int := (lines.length : Int) - 23 * st.numBounds + 1
  (List.range st.numBounds.toNat).foldlM (forcesStep lines staIndex) st

/-- Model of `CFDppParser.Process`: the four readers in order. -/
noncomputable def Process (log : List LogLine) (inp out : List GeomLine) (info1 : List (List Tok))
    (st : PState) : Except Unit PState := do
  let s1 ← readRefVals st log
  let s2 ← readBcInfos s1 log
  let s3 ← readRefGeomVals s2 log inp out
  readForces s3 info1

/-- Model of `math.radians`. -/
noncomputable def radians (x : ℝ) : ℝ := x * Real.pi / 180

/-- The denominator `0.5*refDens*refVmag*refVmag*refArea` of
`GetCoeffLift` / `GetCoeffDrag`. -/
noncomputable def coeffDiv (st : PState) : ℝ :=
  0.5 * st.refDens * st.refVmag * st.refVmag * st.refArea

/-- Model of `CFDppParser.GetCoeffLift`.  The list lookups `force_*[indexLift]` /
`force_*[indexDrag]` use Python indexing (`IndexError` → crash → `none`),
and a zero denominator is a `ZeroDivisionError` (→ `none`), raised at the
first of the three divisions. -/
noncomputable def GetCoeffLift (st : PState) : Option (List ℝ) := do
  let ftL ← st.force_tol.pyGet st.indexLift
  let ftD ← st.force_tol.pyGet st.indexDrag
  if coeffDiv st = 0 then Option.none
  else do
    let fiL ← st.force_inv.pyGet st.indexLift
    let fiD ← st.force_inv.pyGet st.indexDrag
    let fvL ← st.force_vis.pyGet st.indexLift
    let fvD ← st.force_vis.pyGet st.indexDrag
    some [(ftL * Real.cos (radians st.alpha) - ftD * Real.sin (radians st.alpha)) / coeffDiv st,
          (fiL * Real.cos (radians st.alpha) - fiD * Real.sin (radians st.alpha)) / coeffDiv st,
          (fvL * Real.cos (radians st.alpha) - fvD * Real.sin (radians st.alpha)) / coeffDiv st]

/-- Model of `CFDppParser.GetCoeffDrag`. -/
noncomputable def GetCoeffDrag (st : PState) : Option (List ℝ) := do
  let ftL ← st.force_tol.pyGet st.indexLift
  let ftD ← st.force_tol.pyGet st.indexDrag
  if coeffDiv st = 0 then Option.none
  else do
    let fiL ← st.force_inv.pyGet st.indexLift
    let fiD ← st.force_inv.pyGet st.indexDrag
    let fvL ← st.force_vis.pyGet st.indexLift
    let fvD ← st.force_vis.pyGet st.indexDrag
    some [(ftL * Real.sin (radians st.alpha) + ftD * Real.cos (radians st.alpha)) / coeffDiv st,
          (fiL * Real.sin (radians st.alpha) + fiD * Real.cos (radians st.alpha)) / coeffDiv st,
          (fvL * Real.sin (radians st.alpha) + fvD * Real.cos (radians st.alpha)) / coeffDiv st]

/-- Dynamic pressure denominator exactly as the spec words it:
`q = 0.5 × density × magnitude² × reference area` (§4.6). -/
noncomputable def specDynPres (st : PState) : ℝ :=
  0.5 * st.refDens * st.refVmag ^ 2 * st.refArea

/-- Lift decomposition exactly as the spec words it:
`lift = force[lift-axis]·cos(α) − force[drag-axis]·sin(α), divided by q`
(the angle of attack is stored in degrees, so its cosine is taken after
conversion to radians). -/
noncomputable def specLiftCoeff (fL fD a q : ℝ) : ℝ :=
  (fL * Real.cos (radians a) - fD * Real.sin (radians a)) / q

/-- Drag decomposition exactly as the spec words it:
`drag = force[lift-axis]·sin(α) + force[drag-axis]·cos(α), divided by q`. -/
noncomputable def specDragCoeff (fL fD a q : ℝ) : ℝ :=
  (fL * Real.sin (radians a) + fD * Real.cos (radians a)) / q

/-!  Generic helper lemmas. -/

theorem ok_bind {α β : Type _} (a : α) (f : α → Except Unit β) :
    (Except.ok a >>= f : Except Unit β) = f a := rfl

theorem exceptBind_ok {α β : Type _} {x : Except Unit α} {f : α → Except Unit β} {b : β}
    (h : (x >>= f) = Except.ok b) : ∃ a, x = Except.ok a ∧ f a = Except.ok b := by
  cases x with
  | error e => exact absurd h (by simp [Bind.bind, Except.bind])
  | ok a => exact ⟨a, rfl, h⟩

theorem except_isOk_false {α : Type _} {x : Except Unit α} (h : x.isOk = false) :
    x = Except.error () := by
  cases x with
  | error e => rfl
  | ok a => exact absurd h (by simp [Except.isOk, Except.toBool])

theorem foldlM_preserve {α σ β : Type _} {f : σ → α → Except Unit σ} (proj : σ → β)
    (hf : ∀ s a s', f s a = Except.ok s' → proj s' = proj s) :
    ∀ (l : List α) (s s' : σ), l.foldlM f s = Except.ok s' → proj s' = proj s := by
  intro l
  induction l with
  | nil =>
    intro s s' h
    simp only [List.foldlM_nil, pure, Except.pure, Except.ok.injEq] at h
    rw [h]
  | cons a t ih =>
    intro s s' h
    rw [List.foldlM_cons] at h
    obtain ⟨m, hm, ht⟩ := exceptBind_ok h
    rw [ih m s' ht, hf s a m hm]

/-!  Claim C1. -/

/-- Cases with no file present at all: validation reports failure, yet the
constructor (which discards the flag returned by `__Validate`) still
succeeds, so the claim "construction of the parser fails with
`MissingInputError`" is false on the code. -/
theorem C1_counterexample :
    Validate (fun _ => false) "sample" = false ∧
      initParser (fun _ => false) "sample" = Except.ok initState := ⟨rfl, rfl⟩

/-- Claim C1 (amended): `__Validate` returns `False` exactly when the run
log, the report file, or both geometry files (or the case directory) are
absent — printing the absent path — but `__init__` discards that flag, so
construction always succeeds and extraction is not stopped by this check. -/
theorem C1_amended :
    ∀ (ex : String → Bool) (c : String),
      initParser ex c = Except.ok initState ∧
      (Validate ex c = false ↔
        (ex c = false ∨ ex (logFileName c) = false ∨ ex (info1FileName c) = false ∨
          (ex (infinFileName c) = false ∧ ex (infoutFileName c) = false))) := by
  intro ex c
  refine ⟨rfl, ?_⟩
  unfold Validate
  cases h1 : ex c <;> cases h2 : ex (logFileName c) <;> cases h3 : ex (info1FileName c) <;>
    cases h4 : ex (infinFileName c) <;> cases h5 : ex (infoutFileName c) <;> simp

/-- Witness for `C1_amended` at a filesystem with no files. -/
theorem C1_witness :
    initParser (fun _ => false) "wing" = Except.ok initState ∧
      Validate (fun _ => false) "wing" = false :=
  ⟨(C1_amended (fun _ => false) "wing").1,
   (C1_amended (fun _ => false) "wing").2.mpr (Or.inl rfl)⟩

/-!  Claim C8: concrete log whose first line holds the no-slip marker. -/

/-- A log line with all substring flags clear. -/
def plainLine (raw : String) (toks : List Tok) : LogLine :=
  ⟨raw, false, false, false, false, false, false, false, false, toks⟩

/-- Log file for C8: the marker is on the very first line (index 0), so the
source reads `lines[0-2] = lines[-2]`, i.e. the second-to-last line of the
file, whose second token is `42`. -/
def logC8 : List LogLine :=
  [{ plainLine "m" [] with hasNoSlip := true },
   plainLine "a" [],
   plainLine "w" [⟨0, 7⟩, ⟨0, 42⟩],
   plainLine "b" []]

/-- Claim C8, evaluated on the code: with the no-slip marker on the first
line, `__ReadBcInfos` does not fail at all — Python's negative indexing
wraps `lines[-2]` around to the second-to-last line of the file, and its
second field `42` is silently recorded as a no-slip wall id.  The claimed
`MalformedLogError` hard failure does not exist in the source. -/
theorem C8_wraparound :
    (readBcInfos initState logC8).map (fun s => s.noSlipWalls) = Except.ok [42] := rfl

/-!  Claim C9: report file shorter than `23 × numBounds` lines. -/

/-- Float token. -/
def fTok (v : ℝ) : Tok := ⟨v, 0⟩

/-- A 10-line report file for a declared boundary count of 1 (which would
need 23 tail lines): `staIndex = 10 - 23 + 1 = -12`, so all block reads use
negative positions that wrap around to lines 1..6. -/
def info1Short : List (List Tok) :=
  [[],
   [fTok 0, fTok 0, fTok 100, fTok 101, fTok 102],
   [fTok 0, fTok 0, fTok 200, fTok 201, fTok 202],
   [fTok 0, fTok 0, fTok 300, fTok 301, fTok 302],
   [fTok 0, fTok 0, fTok 400],
   [fTok 0, fTok 0, fTok 500],
   [fTok 0, fTok 0, fTok 600],
   [], [], []]

/-- Parser state for C9: one declared boundary, classified no-slip. -/
def stC9 : PState := { initState with numBounds := 1, noSlipWalls := [1] }

/-- Claim C9, evaluated on the code: on a report file whose tail is 13 lines
short of `23 × numBounds`, `__ReadForces` raises nothing — the negative
`staIndex` wraps around through Python indexing and the reader happily
accumulates values taken from lines 1..6 of the file.  No
`MalformedLogError` (nor any error) occurs. -/
theorem C9_wraparound :
    readForces stC9 info1Short =
      Except.ok (addLoads stC9
        ⟨⟨100, 200, 300⟩, ⟨101, 201, 301⟩, ⟨102, 202, 302⟩, ⟨400, 500, 600⟩⟩) := rfl

/-!  Force-reader lemmas (claims C2 and C6). -/

theorem addLoads_noSlipWalls (s : PState) (c : Loads) :
    (addLoads s c).noSlipWalls = s.noSlipWalls := rfl

theorem loadsOf_addLoads (s : PState) (c : Loads) :
    loadsOf (addLoads s c) = (loadsOf s).addL c := rfl

theorem addLoads_sub_self (t : PState) (L : Loads) : addLoads t (L.subL L) = t := by
  ext <;> simp [addLoads, Loads.subL, Vec3.addv, Vec3.subv]

theorem addLoads_addLoads_sub (t : PState) (c L M : Loads) :
    addLoads (addLoads t c) (L.subL (M.addL c)) = addLoads t (L.subL M) := by
  ext <;> simp [addLoads, Loads.subL, Loads.addL, Vec3.addv, Vec3.subv] <;> ring

theorem Loads.add_sub_cancel (L M : Loads) : L.addL (M.subL L) = M := by
  ext <;> simp [Loads.subL, Loads.addL, Vec3.addv, Vec3.subv]

theorem forcesStep_ok_mem {lines : List (List Tok)} {sta : Int} {s s' : PState} {a : Nat}
    (h : forcesStep lines sta s a = Except.ok s') (hm : ((a : Int) + 1) ∈ s.noSlipWalls) :
    ∃ c, blockRead lines (sta + (a : Int) * 23) = Except.ok c ∧ s' = addLoads s c := by
  unfold forcesStep at h
  rw [if_pos hm] at h
  obtain ⟨c, hc, h2⟩ := exceptBind_ok h
  exact ⟨c, hc, by cases h2; rfl⟩

theorem forcesLoop_shift :
    ∀ (l : List Nat) (lines : List (List Tok)) (sta : Int) (s t s' : PState),
      (∀ a ∈ l, (((a : Int) + 1) ∈ t.noSlipWalls ↔ ((a : Int) + 1) ∈ s.noSlipWalls)) →
      l.foldlM (forcesStep lines sta) s = Except.ok s' →
      l.foldlM (forcesStep lines sta) t =
        Except.ok (addLoads t ((loadsOf s').subL (loadsOf s))) := by
  intro l
  induction l with
  | nil =>
    intro lines sta s t s' _ h
    simp only [List.foldlM_nil, pure, Except.pure, Except.ok.injEq] at h
    rw [← h, addLoads_sub_self]
    rfl
  | cons a r ih =>
    intro lines sta s t s' hmem h
    rw [List.foldlM_cons] at h ⊢
    obtain ⟨s₁, hs₁, hrest⟩ := exceptBind_ok h
    by_cases hm : ((a : Int) + 1) ∈ s.noSlipWalls
    · obtain ⟨c, hc, rfl⟩ := forcesStep_ok_mem hs₁ hm
      have hmt : ((a : Int) + 1) ∈ t.noSlipWalls :=
        (hmem a (List.mem_cons_self a r)).mpr hm
      have ht : forcesStep lines sta t a = Except.ok (addLoads t c) := by
        unfold forcesStep
        rw [if_pos hmt, hc]
        rfl
      rw [ht, ok_bind]
      have hih := ih lines sta (addLoads s c) (addLoads t c) s'
        (fun b hb => by
          rw [addLoads_noSlipWalls, addLoads_noSlipWalls]
          exact hmem b (List.mem_cons_of_mem a hb)) hrest
      rw [hih, loadsOf_addLoads, addLoads_addLoads_sub]
    · have hmt : ((a : Int) + 1) ∉ t.noSlipWalls := fun hx =>
        hm ((hmem a (List.mem_cons_self a r)).mp hx)
      have hss : s₁ = s := by
        unfold forcesStep at hs₁
        rw [if_neg hm] at hs₁
        cases hs₁
        rfl
      subst hss
      have ht : forcesStep lines sta t a = Except.ok t := by
        unfold forcesStep
        rw [if_neg hmt]
      rw [ht, ok_bind]
      exact ih lines sta s₁ t s' (fun b hb => hmem b (List.mem_cons_of_mem a hb)) hrest

theorem forcesLoop_isOk :
    ∀ (l : List Nat) (lines : List (List Tok)) (sta : Int) (s t : PState),
      (∀ a ∈ l, (((a : Int) + 1) ∈ t.noSlipWalls ↔ ((a : Int) + 1) ∈ s.noSlipWalls)) →
      (l.foldlM (forcesStep lines sta) s).isOk = (l.foldlM (forcesStep lines sta) t).isOk := by
  intro l
  induction l with
  | nil => intro lines sta s t _; rfl
  | cons a r ih =>
    intro lines sta s t hmem
    rw [List.foldlM_cons, List.foldlM_cons]
    by_cases hm : ((a : Int) + 1) ∈ s.noSlipWalls
    · have hmt : ((a : Int) + 1) ∈ t.noSlipWalls :=
        (hmem a (List.mem_cons_self a r)).mpr hm
      cases hbr : blockRead lines (sta + (a : Int) * 23) with
      | error e =>
        have hs : forcesStep lines sta s a = Except.error e := by
          unfold forcesStep; rw [if_pos hm, hbr]; rfl
        have ht : forcesStep lines sta t a = Except.error e := by
          unfold forcesStep; rw [if_pos hmt, hbr]; rfl
        rw [hs, ht]
      | ok c =>
        have hs : forcesStep lines sta s a = Except.ok (addLoads s c) := by
          unfold forcesStep; rw [if_pos hm, hbr]; rfl
        have ht : forcesStep lines sta t a = Except.ok (addLoads t c) := by
          unfold forcesStep; rw [if_pos hmt, hbr]; rfl
        rw [hs, ht, ok_bind, ok_bind]
        exact ih lines sta (addLoads s c) (addLoads t c) (fun b hb => by
          rw [addLoads_noSlipWalls, addLoads_noSlipWalls]
          exact hmem b (List.mem_cons_of_mem a hb))
    · have hmt : ((a : Int) + 1) ∉ t.noSlipWalls := fun hx =>
        hm ((hmem a (List.mem_cons_self a r)).mp hx)
      have hs : forcesStep lines sta s a = Except.ok s := by
        unfold forcesStep; rw [if_neg hm]
      have ht : forcesStep lines sta t a = Except.ok t := by
        unfold forcesStep; rw [if_neg hmt]
      rw [hs, ht, ok_bind, ok_bind]
      exact ih lines sta s t (fun b hb => hmem b (List.mem_cons_of_mem a hb))

theorem forcesLoop_skip :
    ∀ (l : List Nat) (lines : List (List Tok)) (sta : Int) (s : PState),
      (∀ a ∈ l, ((a : Int) + 1) ∉ s.noSlipWalls) →
      l.foldlM (forcesStep lines sta) s = Except.ok s := by
  intro l
  induction l with
  | nil => intro lines sta s _; rfl
  | cons a r ih =>
    intro lines sta s h
    rw [List.foldlM_cons]
    have hs : forcesStep lines sta s a = Except.ok s := by
      unfold forcesStep
      rw [if_neg (h a (List.mem_cons_self a r))]
    rw [hs, ok_bind]
    exact ih lines sta s fun b hb => h b (List.mem_cons_of_mem a hb)

theorem readForces_skip {st : PState} {lines : List (List Tok)}
    (h : ∀ i : Int, i ∈ st.noSlipWalls → ¬(1 ≤ i ∧ i ≤ st.numBounds)) :
    readForces st lines = Except.ok st := by
  unfold readForces
  apply forcesLoop_skip
  intro a ha hmem
  have ha' : a < st.numBounds.toNat := List.mem_range.mp ha
  exact h _ hmem ⟨by omega, by omega⟩

theorem readForces_isOk_congr {lines : List (List Tok)} {s t : PState}
    (hn : t.numBounds = s.numBounds)
    (hw : ∀ i : Int, 1 ≤ i → i ≤ s.numBounds → (i ∈ t.noSlipWalls ↔ i ∈ s.noSlipWalls)) :
    (readForces s lines).isOk = (readForces t lines).isOk := by
  unfold readForces
  rw [hn]
  exact forcesLoop_isOk _ _ _ _ _ fun a ha => by
    have ha' : a < s.numBounds.toNat := List.mem_range.mp ha
    exact hw _ (by omega) (by omega)

theorem readForces_shift {lines : List (List Tok)} {s s' t : PState}
    (h : readForces s lines = Except.ok s')
    (hn : t.numBounds = s.numBounds)
    (hw : ∀ i : Int, 1 ≤ i → i ≤ s.numBounds → (i ∈ t.noSlipWalls ↔ i ∈ s.noSlipWalls)) :
    readForces t lines = Except.ok (addLoads t ((loadsOf s').subL (loadsOf s))) := by
  unfold readForces at h ⊢
  rw [hn]
  apply forcesLoop_shift _ _ _ _ _ _ _ h
  intro a ha
  have ha' : a < s.numBounds.toNat := List.mem_range.mp ha
  exact hw _ (by omega) (by omega)

/-- Claim C2: in `__ReadForces` only boundary indices (1-based, between 1 and
the boundary count) that are members of the no-slip set contribute to the
accumulated total/inviscid/viscous force vectors and moment vector: (i) the
accumulated loads depend on the no-slip list only through membership of the
indices `1..numBounds` (walls outside that range are never consulted);
(ii) when no index in range `1..numBounds` is a member, the reader returns
its input state unchanged; (iii) in particular, starting from the
constructor state, every component of all four vectors is exactly `0.0`
after extraction. -/
theorem C2_noslip_only :
    (∀ (lines : List (List Tok)) (st : PState) (w w' : List Int),
       (∀ i : Int, 1 ≤ i → i ≤ st.numBounds → (i ∈ w ↔ i ∈ w')) →
       (readForces { st with noSlipWalls := w } lines).map loadsOf
         = (readForces { st with noSlipWalls := w' } lines).map loadsOf) ∧
    (∀ (lines : List (List Tok)) (st : PState),
       (∀ i : Int, i ∈ st.noSlipWalls → ¬(1 ≤ i ∧ i ≤ st.numBounds)) →
       readForces st lines = Except.ok st) ∧
    (∀ (lines : List (List Tok)) (n : Int) (w : List Int),
       (∀ i : Int, i ∈ w → ¬(1 ≤ i ∧ i ≤ n)) →
       (readForces { initState with numBounds := n, noSlipWalls := w } lines).map
           (fun s => (s.force_tol, s.force_inv, s.force_vis, s.moment))
         = Except.ok (Vec3.zero, Vec3.zero, Vec3.zero, Vec3.zero)) := by
  refine ⟨?_, ?_, ?_⟩
  · intro lines st w w' hiff
    cases hok : readForces { st with noSlipWalls := w } lines with
    | ok s' =>
      have ht := readForces_shift (t := { st with noSlipWalls := w' }) hok rfl
        (fun i h1 h2 => (hiff i h1 h2).symm)
      rw [ht]
      simp only [Except.map]
      rw [loadsOf_addLoads]
      have hts : loadsOf ({ st with noSlipWalls := w' } : PState)
          = loadsOf ({ st with noSlipWalls := w } : PState) := rfl
      rw [hts, Loads.add_sub_cancel]
    | error e =>
      cases e
      have hok' : (readForces { st with noSlipWalls := w' } lines).isOk = false := by
        have hcongr : (readForces { st with noSlipWalls := w } lines).isOk
            = (readForces { st with noSlipWalls := w' } lines).isOk :=
          readForces_isOk_congr rfl (fun i h1 h2 => (hiff i h1 h2).symm)
        rw [← hcongr, hok]
        rfl
      rw [except_isOk_false hok']
  · intro lines st h
    exact readForces_skip h
  · intro lines n w h
    rw [readForces_skip h]
    rfl

/-- Witness for `C2_noslip_only`: two boundaries, the only listed wall id `5`
out of range, an empty report file. -/
theorem C2_witness :
    (readForces { initState with numBounds := 2, noSlipWalls := [5] } []).map loadsOf
        = (readForces { initState with numBounds := 2, noSlipWalls := [] } []).map loadsOf ∧
      readForces { initState with numBounds := 2, noSlipWalls := [5] } []
        = Except.ok { initState with numBounds := 2, noSlipWalls := [5] } ∧
      (readForces { initState with numBounds := 2, noSlipWalls := [5] } []).map
          (fun s => (s.force_tol, s.force_inv, s.force_vis, s.moment))
        = Except.ok (Vec3.zero, Vec3.zero, Vec3.zero, Vec3.zero) := by
  refine ⟨?_, ?_, ?_⟩
  · refine C2_noslip_only.1 [] ({ initState with numBounds := 2 } : PState) [5] [] ?_
    intro i h1 h2
    have h2' : i ≤ (2 : Int) := h2
    simp
    omega
  · refine C2_noslip_only.2.1 [] _ ?_
    intro i hi
    simp at hi
    subst hi
    decide
  · refine C2_noslip_only.2.2 [] 2 [5] ?_
    intro i hi
    simp at hi
    subst hi
    decide

/-- Claim C3: `GetCoeffLift` / `GetCoeffDrag` compute, for each of the
total, inviscid and viscous force vectors, exactly the spec's rotation
formulas divided by `q = 0.5 × density × magnitude² × reference area`, and
at angle of attack `0.0` they reduce to `force[lift-axis]/q` and
`force[drag-axis]/q` with no cross term. -/
theorem C3_coeff_engine :
    ∀ (st : PState) (ftL ftD fiL fiD fvL fvD : ℝ),
      st.force_tol.pyGet st.indexLift = some ftL →
      st.force_tol.pyGet st.indexDrag = some ftD →
      st.force_inv.pyGet st.indexLift = some fiL →
      st.force_inv.pyGet st.indexDrag = some fiD →
      st.force_vis.pyGet st.indexLift = some fvL →
      st.force_vis.pyGet st.indexDrag = some fvD →
      coeffDiv st ≠ 0 →
      GetCoeffLift st = some [specLiftCoeff ftL ftD st.alpha (specDynPres st),
                              specLiftCoeff fiL fiD st.alpha (specDynPres st),
                              specLiftCoeff fvL fvD st.alpha (specDynPres st)] ∧
      GetCoeffDrag st = some [specDragCoeff ftL ftD st.alpha (specDynPres st),
                              specDragCoeff fiL fiD st.alpha (specDynPres st),
                              specDragCoeff fvL fvD st.alpha (specDynPres st)] ∧
      (st.alpha = 0 →
        GetCoeffLift st
            = some [ftL / specDynPres st, fiL / specDynPres st, fvL / specDynPres st] ∧
        GetCoeffDrag st
            = some [ftD / specDynPres st, fiD / specDynPres st, fvD / specDynPres st]) := by
  intro st ftL ftD fiL fiD fvL fvD h1 h2 h3 h4 h5 h6 hq0
  have hq : coeffDiv st = specDynPres st := by
    unfold coeffDiv specDynPres
    ring
  have hL : GetCoeffLift st = some [specLiftCoeff ftL ftD st.alpha (specDynPres st),
      specLiftCoeff fiL fiD st.alpha (specDynPres st),
      specLiftCoeff fvL fvD st.alpha (specDynPres st)] := by
    unfold GetCoeffLift
    rw [h1, h2]
    simp only [Option.bind_eq_bind, Option.some_bind, if_neg hq0]
    rw [h3, h4, h5, h6]
    simp only [Option.some_bind, specLiftCoeff, hq]
  have hD : GetCoeffDrag st = some [specDragCoeff ftL ftD st.alpha (specDynPres st),
      specDragCoeff fiL fiD st.alpha (specDynPres st),
      specDragCoeff fvL fvD st.alpha (specDynPres st)] := by
    unfold GetCoeffDrag
    rw [h1, h2]
    simp only [Option.bind_eq_bind, Option.some_bind, if_neg hq0]
    rw [h3, h4, h5, h6]
    simp only [Option.some_bind, specDragCoeff, hq]
  refine ⟨hL, hD, ?_⟩
  intro h0
  have hLz : ∀ fL fD : ℝ, specLiftCoeff fL fD st.alpha (specDynPres st) = fL / specDynPres st := by
    intro fL fD
    unfold specLiftCoeff radians
    rw [h0]
    simp
  have hDz : ∀ fL fD : ℝ, specDragCoeff fL fD st.alpha (specDynPres st) = fD / specDynPres st := by
    intro fL fD
    unfold specDragCoeff radians
    rw [h0]
    simp
  rw [hL, hD, hLz, hLz, hLz, hDz, hDz, hDz]
  exact ⟨rfl, rfl⟩

/-- Concrete state for the C3 witness: `xy`-plane axis indices, zero angle
of attack, `q = 0.5·1·2·2·1 = 2`. -/
def stC3 : PState :=
  { initState with indexLift := 1, indexDrag := 0, refDens := 1, refVmag := 2, refArea := 1,
                   alpha := 0, force_tol := ⟨9, 2, 0⟩, force_inv := ⟨9, 5, 0⟩,
                   force_vis := ⟨9, 8, 0⟩ }

/-- Witness for `C3_coeff_engine` at `stC3`. -/
theorem C3_witness :
    GetCoeffLift stC3 = some [1, 5 / 2, 4] ∧
      GetCoeffDrag stC3 = some [9 / 2, 9 / 2, 9 / 2] := by
  obtain ⟨hL, hD, hz⟩ := C3_coeff_engine stC3 2 9 5 9 8 9 rfl rfl rfl rfl rfl rfl
    (by norm_num [coeffDiv, stC3, initState])
  obtain ⟨hL0, hD0⟩ := hz rfl
  rw [hL0, hD0]
  norm_num [specDynPres, stC3, initState]

/-!  Geometry-reader lemmas (claims C4 and C10). -/

theorem setKey_ok {flag : Bool} {o : Option GeomTok} {upd : PState → ℝ → PState}
    {s s' : PState} (h : setKey flag o upd s = Except.ok s') :
    s' = s ∨ ∃ v, s' = upd s v := by
  unfold setKey at h
  by_cases hf : flag = true
  · rw [if_pos hf] at h
    cases o with
    | none => exact absurd h (by simp)
    | some t => exact Or.inr ⟨t.r, by cases h; rfl⟩
  · rw [if_neg hf] at h
    cases h
    exact Or.inl rfl

theorem geomScalars_keeps {l : GeomLine} {s s' : PState} (h : geomScalars l s = Except.ok s') :
    s'.symmPlane = s.symmPlane ∧ s'.SymmPlaneType = s.SymmPlaneType ∧
      tripleOf s' = tripleOf s ∧ s'.numBounds = s.numBounds ∧
      s'.noSlipWalls = s.noSlipWalls ∧ loadsOf s' = loadsOf s := by
  unfold geomScalars at h
  obtain ⟨s1, h1, h⟩ := exceptBind_ok h
  obtain ⟨s2, h2, h⟩ := exceptBind_ok h
  obtain ⟨s3, h3, h⟩ := exceptBind_ok h
  obtain ⟨s4, h4, h⟩ := exceptBind_ok h
  obtain ⟨s5, h5, h6⟩ := exceptBind_ok h
  rcases setKey_ok h1 with rfl | ⟨v1, rfl⟩ <;> rcases setKey_ok h2 with rfl | ⟨v2, rfl⟩ <;>
    rcases setKey_ok h3 with rfl | ⟨v3, rfl⟩ <;> rcases setKey_ok h4 with rfl | ⟨v4, rfl⟩ <;>
    rcases setKey_ok h5 with rfl | ⟨v5, rfl⟩ <;> rcases setKey_ok h6 with rfl | ⟨v6, rfl⟩ <;>
    exact ⟨rfl, rfl, rfl, rfl, rfl, rfl⟩

theorem planeKey_ok_false {l : GeomLine} {s s' : PState} (h : planeKey l s = Except.ok s')
    (hp : l.hasPlane = false) : s' = s := by
  unfold planeKey at h
  rw [hp] at h
  simp only [Bool.false_eq_true, if_false] at h
  cases h
  rfl

theorem planeKey_ok_true {l : GeomLine} {s s' : PState} {t : GeomTok}
    (h : planeKey l s = Except.ok s') (hp : l.hasPlane = true) (ht : l.toks.get? 1 = some t) :
    (t.s = "xy" →
      s' = { s with SymmPlaneType := some SymmetryPlaneType.xyPlane,
                    indexDrag := 0, indexLift := 1, indexSide := 2 }) ∧
    (t.s ≠ "xy" →
      s' = { s with SymmPlaneType := some SymmetryPlaneType.xzPlane,
                    indexDrag := 0, indexLift := 2, indexSide := 1 }) := by
  unfold planeKey at h
  rw [hp] at h
  simp only [if_true, ht] at h
  constructor
  · intro hxy
    rw [if_pos hxy] at h
    cases h
    rfl
  · intro hxy
    rw [if_neg hxy] at h
    cases h
    rfl

theorem geomStep_keeps {s : PState} {l : GeomLine} {s' : PState}
    (h : geomStep s l = Except.ok s') :
    s'.symmPlane = s.symmPlane ∧ s'.numBounds = s.numBounds ∧
      s'.noSlipWalls = s.noSlipWalls ∧ loadsOf s' = loadsOf s := by
  unfold geomStep at h
  obtain ⟨m, hm, hp⟩ := exceptBind_ok h
  obtain ⟨e1, e2, e3, e4, e5, e6⟩ := geomScalars_keeps hm
  cases hpl : l.hasPlane with
  | false =>
    rw [planeKey_ok_false hp hpl]
    exact ⟨e1, e4, e5, e6⟩
  | true =>
    cases ht : l.toks.get? 1 with
    | none =>
      rw [planeKey] at hp
      rw [hpl] at hp
      simp only [if_true, ht] at hp
      exact Except.noConfusion hp
    | some t =>
      obtain ⟨hxy, hnxy⟩ := planeKey_ok_true hp hpl ht
      by_cases hts : t.s = "xy"
      · rw [hxy hts]
        exact ⟨e1, e4, e5, e6⟩
      · rw [hnxy hts]
        exact ⟨e1, e4, e5, e6⟩

theorem geomStep_triple {s : PState} {l : GeomLine} {s' : PState}
    (h : geomStep s l = Except.ok s') :
    (l.hasPlane = false → tripleOf s' = tripleOf s) ∧
    (l.hasPlane = true → tripleOf s' = (0, 1, 2) ∨ tripleOf s' = (0, 2, 1)) := by
  unfold geomStep at h
  obtain ⟨m, hm, hp⟩ := exceptBind_ok h
  obtain ⟨e1, e2, e3, e4, e5, e6⟩ := geomScalars_keeps hm
  constructor
  · intro hpl
    rw [planeKey_ok_false hp hpl]
    exact e3
  · intro hpl
    cases ht : l.toks.get? 1 with
    | none =>
      rw [planeKey] at hp
      rw [hpl] at hp
      simp only [if_true, ht] at hp
      exact Except.noConfusion hp
    | some t =>
      obtain ⟨hxy, hnxy⟩ := planeKey_ok_true hp hpl ht
      by_cases hts : t.s = "xy"
      · rw [hxy hts]
        exact Or.inl rfl
      · rw [hnxy hts]
        exact Or.inr rfl

theorem geomFile_keeps {st : PState} {lines : List GeomLine} {s' : PState}
    (h : readRefGeomValsFile st lines = Except.ok s') :
    s'.symmPlane = st.symmPlane ∧ s'.numBounds = st.numBounds ∧
      s'.noSlipWalls = st.noSlipWalls ∧ loadsOf s' = loadsOf st := by
  have := foldlM_preserve (f := geomStep)
    (fun s => (s.symmPlane, s.numBounds, s.noSlipWalls, loadsOf s))
    (fun s a s' hs => by
      obtain ⟨e1, e2, e3, e4⟩ := geomStep_keeps hs
      simp [e1, e2, e3, e4]) lines st s' h
  exact ⟨congrArg (fun p => p.1) this, congrArg (fun p => p.2.1) this,
         congrArg (fun p => p.2.2.1) this, congrArg (fun p => p.2.2.2) this⟩

theorem geomFile_triple :
    ∀ (lines : List GeomLine) (s s' : PState), readRefGeomValsFile s lines = Except.ok s' →
      (tripleOf s' = tripleOf s ∧ ∀ l ∈ lines, l.hasPlane = false) ∨
        tripleOf s' = (0, 1, 2) ∨ tripleOf s' = (0, 2, 1) := by
  intro lines
  induction lines with
  | nil =>
    intro s s' h
    simp only [readRefGeomValsFile, List.foldlM_nil, pure, Except.pure, Except.ok.injEq] at h
    subst h
    exact Or.inl ⟨rfl, by intro l hl; cases hl⟩
  | cons a r ih =>
    intro s s' h
    unfold readRefGeomValsFile at h
    rw [List.foldlM_cons] at h
    obtain ⟨m, hm, hrest⟩ := exceptBind_ok h
    have hstep := geomStep_triple hm
    have hrest' : readRefGeomValsFile m r = Except.ok s' := hrest
    cases hpl : a.hasPlane with
    | false =>
      have e := hstep.1 hpl
      rcases ih m s' hrest' with ⟨e2, hall⟩ | h2 | h2
      · refine Or.inl ⟨e2.trans e, ?_⟩
        intro l hl
        rcases List.mem_cons.mp hl with rfl | hl'
        · exact hpl
        · exact hall l hl'
      · exact Or.inr (Or.inl h2)
      · exact Or.inr (Or.inr h2)
    | true =>
      rcases ih m s' hrest' with ⟨e2, _⟩ | h2 | h2
      · rw [e2]
        exact Or.inr (hstep.2 hpl)
      · exact Or.inr (Or.inl h2)
      · exact Or.inr (Or.inr h2)

/-- Claim C4: axis assignment is a pure function of the symmetry-plane token:
(i) a processed line carrying the `"plane"` key sets
`(indexDrag, indexLift, indexSide)` to `(0,1,2)` when its second token is
`"xy"` and to `(0,2,1)` for any other token; (ii) after the geometry reader
runs on a file containing a plane line, the triple is one of those two;
(iii) under the only remaining (construction-default) assignment `-99`,
the coefficient accessors fail before producing anything, so no third
distinct assignment is ever active when coefficients are computed. -/
theorem C4_axis_assignment :
    (∀ (s : PState) (l : GeomLine) (s' : PState) (t : GeomTok),
       geomStep s l = Except.ok s' → l.hasPlane = true → l.toks.get? 1 = some t →
       (t.s = "xy" → tripleOf s' = (0, 1, 2)) ∧ (t.s ≠ "xy" → tripleOf s' = (0, 2, 1))) ∧
    (∀ (st : PState) (lines : List GeomLine) (s' : PState),
       readRefGeomValsFile st lines = Except.ok s' → (∃ l ∈ lines, l.hasPlane = true) →
       tripleOf s' = (0, 1, 2) ∨ tripleOf s' = (0, 2, 1)) ∧
    (∀ st : PState, st.indexLift = -99 →
       GetCoeffLift st = Option.none ∧ GetCoeffDrag st = Option.none) := by
  refine ⟨?_, ?_, ?_⟩
  · intro s l s' t h hp ht
    unfold geomStep at h
    obtain ⟨m, hm, hplane⟩ := exceptBind_ok h
    obtain ⟨hxy, hnxy⟩ := planeKey_ok_true hplane hp ht
    constructor
    · intro hts
      rw [hxy hts]
      rfl
    · intro hts
      rw [hnxy hts]
      rfl
  · intro st lines s' h hex
    rcases geomFile_triple lines st s' h with ⟨_, hall⟩ | h2 | h2
    · obtain ⟨l, hl, hpl⟩ := hex
      rw [hall l hl] at hpl
      cases hpl
    · exact Or.inl h2
    · exact Or.inr h2
  · intro st h
    have hnone : st.force_tol.pyGet st.indexLift = Option.none := by
      rw [h]
      rfl
    constructor
    · unfold GetCoeffLift
      rw [hnone]
      rfl
    · unfold GetCoeffDrag
      rw [hnone]
      rfl

/-!  Reference-condition reader lemmas (claims C5, C6, C7). -/

theorem foldl_preserve {α σ β : Type _} (f : σ → α → σ) (proj : σ → β) :
    ∀ (l : List α) (s : σ), (∀ a ∈ l, ∀ s, proj (f s a) = proj s) →
      proj (l.foldl f s) = proj s := by
  intro l
  induction l with
  | nil => intro s _; rfl
  | cons a r ih =>
    intro s h
    rw [List.foldl_cons, ih (f s a) (fun b hb => h b (List.mem_cons_of_mem a hb)),
        h a (List.mem_cons_self a r)]

theorem refValsStep_kept (s : PState) (l : LogLine) :
    (refValsStep s l).symmPlane = s.symmPlane ∧
      (refValsStep s l).refVmag = s.refVmag ∧
      (refValsStep s l).refDens = s.refDens ∧
      (refValsStep s l).refMach = s.refMach ∧
      (refValsStep s l).numBounds = s.numBounds ∧
      (refValsStep s l).noSlipWalls = s.noSlipWalls ∧
      loadsOf (refValsStep s l) = loadsOf s := by
  unfold refValsStep setW setV setU setTemp setPres
  split_ifs <;> exact ⟨rfl, rfl, rfl, rfl, rfl, rfl, rfl⟩

/-- Inversion of `__ReadRefVals`: a successful run is the scan followed by
the three derived-value updates, and the guards all passed. -/
theorem readRefVals_ok {st : PState} {lines : List LogLine} {s' : PState}
    (h : readRefVals st lines = Except.ok s') :
    ¬((lines.foldl refValsStep st).refVmag
        + (lines.foldl refValsStep st).refVels.x * (lines.foldl refValsStep st).refVels.x
        + (lines.foldl refValsStep st).refVels.y * (lines.foldl refValsStep st).refVels.y
        + (lines.foldl refValsStep st).refVels.z * (lines.foldl refValsStep st).refVels.z < 0) ∧
      (lines.foldl refValsStep st).refTemp ≠ 0 ∧
      ¬((lines.foldl refValsStep st).refTemp < 0) ∧
      s' = { lines.foldl refValsStep st with
        refVmag := Real.sqrt ((lines.foldl refValsStep st).refVmag
          + (lines.foldl refValsStep st).refVels.x * (lines.foldl refValsStep st).refVels.x
          + (lines.foldl refValsStep st).refVels.y * (lines.foldl refValsStep st).refVels.y
          + (lines.foldl refValsStep st).refVels.z * (lines.foldl refValsStep st).refVels.z)
        refDens := (lines.foldl refValsStep st).refPres / 287
          / (lines.foldl refValsStep st).refTemp
        refMach := Real.sqrt ((lines.foldl refValsStep st).refVmag
          + (lines.foldl refValsStep st).refVels.x * (lines.foldl refValsStep st).refVels.x
          + (lines.foldl refValsStep st).refVels.y * (lines.foldl refValsStep st).refVels.y
          + (lines.foldl refValsStep st).refVels.z * (lines.foldl refValsStep st).refVels.z)
          / Real.sqrt (1.4 * 287 * (lines.foldl refValsStep st).refTemp) } := by
  unfold readRefVals refValsFinish at h
  split_ifs at h with h1 h2 h3
  injection h with h4
  exact ⟨h1, h2, h3, h4.symm⟩

/-- Evaluation of the tail of `__ReadRefVals` when the guards pass. -/
theorem refValsFinish_eval (s : PState)
    (hvm : 0 ≤ s.refVmag + s.refVels.x * s.refVels.x + s.refVels.y * s.refVels.y
      + s.refVels.z * s.refVels.z)
    (ht : 0 < s.refTemp) :
    refValsFinish s = Except.ok { s with
      refVmag := Real.sqrt (s.refVmag + s.refVels.x * s.refVels.x
        + s.refVels.y * s.refVels.y + s.refVels.z * s.refVels.z)
      refDens := s.refPres / 287 / s.refTemp
      refMach := Real.sqrt (s.refVmag + s.refVels.x * s.refVels.x
        + s.refVels.y * s.refVels.y + s.refVels.z * s.refVels.z)
        / Real.sqrt (1.4 * 287 * s.refTemp) } := by
  unfold refValsFinish
  rw [if_neg (not_lt.mpr hvm), if_neg (ne_of_gt ht), if_neg (not_lt.mpr (le_of_lt ht))]

theorem readRefVals_keeps {st : PState} {lines : List LogLine} {s' : PState}
    (h : readRefVals st lines = Except.ok s') :
    s'.numBounds = st.numBounds ∧ s'.noSlipWalls = st.noSlipWalls ∧
      loadsOf s' = loadsOf st ∧ s'.symmPlane = st.symmPlane := by
  obtain ⟨-, -, -, rfl⟩ := readRefVals_ok h
  have hsc : ((lines.foldl refValsStep st).numBounds, (lines.foldl refValsStep st).noSlipWalls,
        loadsOf (lines.foldl refValsStep st), (lines.foldl refValsStep st).symmPlane)
      = (st.numBounds, st.noSlipWalls, loadsOf st, st.symmPlane) :=
    foldl_preserve refValsStep
      (fun s => (s.numBounds, s.noSlipWalls, loadsOf s, s.symmPlane)) lines st
      (fun a _ s => by
        obtain ⟨e1, e2, e3, e4, e5, e6, e7⟩ := refValsStep_kept s a
        simp [e1, e5, e6, e7])
  have h2 := congrArg Prod.snd hsc
  have h3 := congrArg Prod.snd h2
  exact ⟨congrArg Prod.fst hsc, congrArg Prod.fst h2, congrArg Prod.fst h3,
         congrArg Prod.snd h3⟩

/-- Claim C5: after a successful run of the reference-condition reader from
the constructor state, density equals `pressure/(287·temperature)`, the
velocity magnitude equals the Euclidean norm of the three parsed velocity
components, and Mach equals `magnitude/sqrt(1.4·287·temperature)`.  The
statement holds for every log content, which is the formal content of
"density and Mach are derived, never parsed". -/
theorem C5_derived_refs :
    ∀ (lines : List LogLine) (st' : PState),
      readRefVals initState lines = Except.ok st' →
      st'.refDens = st'.refPres / (287 * st'.refTemp) ∧
      st'.refVmag = Real.sqrt (st'.refVels.x ^ 2 + st'.refVels.y ^ 2 + st'.refVels.z ^ 2) ∧
      st'.refMach = st'.refVmag / Real.sqrt (1.4 * 287 * st'.refTemp) := by
  intro lines st' h
  obtain ⟨-, -, -, rfl⟩ := readRefVals_ok h
  have hvm0 : (lines.foldl refValsStep initState).refVmag = 0 := by
    have h2 : (lines.foldl refValsStep initState).refVmag = initState.refVmag :=
      foldl_preserve refValsStep (fun s => s.refVmag) lines initState
        (fun a _ s => (refValsStep_kept s a).2.1)
    rw [h2]
    rfl
  refine ⟨div_div _ _ _, ?_, rfl⟩
  rw [hvm0]
  ring_nf

/-!  Concrete one-boundary case used by several witnesses. -/

/-- Log line `aero_temp = 300`. -/
def tempLine : LogLine :=
  { plainLine "t" [⟨0, 0⟩, ⟨0, 0⟩, ⟨300, 300⟩] with hasAeroTemp := true }

/-- Log line `mbcons = 1`. -/
def mbconsLine : LogLine :=
  { plainLine "mb" [⟨0, 0⟩, ⟨0, 0⟩, ⟨1, 1⟩] with hasMbcons := true }

/-- Boundary-condition header line whose second token is the boundary id 1;
it sits exactly two lines above the no-slip marker. -/
def wallLine : LogLine := plainLine "w" [⟨0, 0⟩, ⟨1, 1⟩]

def fillLine : LogLine := plainLine "f" []

/-- Line containing the `# No-slip adiabatic wall` marker. -/
def markLine : LogLine := { plainLine "mk" [] with hasNoSlip := true }

/-- A well-formed run log: one boundary, boundary 1 no-slip. -/
def cLog : List LogLine := [tempLine, mbconsLine, wallLine, fillLine, markLine]

/-- Geometry line `ssplane xy`. -/
def planeLineXY : GeomLine :=
  ⟨false, false, false, false, false, false, true, [⟨"sym", 0⟩, ⟨"xy", 0⟩]⟩

def cInp : List GeomLine := [planeLineXY]

def cOut : List GeomLine := []

/-- A 23-line `mcfd.info1` for one boundary: the block starts at line 1, so
the force lines are 4/5/6 and the moment lines 7/8/9. -/
def cInfo1 : List (List Tok) :=
  [[], [], [], [],
   [fTok 0, fTok 0, fTok 1, fTok 2, fTok 3],
   [fTok 0, fTok 0, fTok 4, fTok 5, fTok 6],
   [fTok 0, fTok 0, fTok 7, fTok 8, fTok 9],
   [fTok 0, fTok 0, fTok 10],
   [fTok 0, fTok 0, fTok 11],
   [fTok 0, fTok 0, fTok 12],
   [], [], [], [], [], [], [], [], [], [], [], [], []]

/-- Scan result of `__ReadRefVals` on `cLog`. -/
def sMidA : PState := { initState with refTemp := 300 }

/-- State after `__ReadRefVals` on `cLog`. -/
noncomputable def sA : PState :=
  { sMidA with
    refVmag := Real.sqrt (sMidA.refVmag + sMidA.refVels.x * sMidA.refVels.x
      + sMidA.refVels.y * sMidA.refVels.y + sMidA.refVels.z * sMidA.refVels.z)
    refDens := sMidA.refPres / 287 / sMidA.refTemp
    refMach := Real.sqrt (sMidA.refVmag + sMidA.refVels.x * sMidA.refVels.x
      + sMidA.refVels.y * sMidA.refVels.y + sMidA.refVels.z * sMidA.refVels.z)
      / Real.sqrt (1.4 * 287 * sMidA.refTemp) }

theorem hA : readRefVals initState cLog = Except.ok sA := by
  have h0 : readRefVals initState cLog = refValsFinish sMidA := by
    unfold readRefVals
    rw [show cLog.foldl refValsStep initState = sMidA from rfl]
  rw [h0]
  exact refValsFinish_eval sMidA
    (by exact (by norm_num : (0:ℝ) ≤ 0 + 0 * 0 + 0 * 0 + 0 * 0))
    (by exact (by norm_num : (0:ℝ) < 300))

/-- State after `__ReadBcInfos` on `cLog`. -/
noncomputable def sB : PState := { sA with numBounds := 1, noSlipWalls := [1] }

theorem hB : readBcInfos sA cLog = Except.ok sB := rfl

/-- State after `__ReadRefGeomVals` (xy-plane geometry file). -/
noncomputable def sC : PState :=
  { sB with SymmPlaneType := some SymmetryPlaneType.xyPlane,
            indexDrag := 0, indexLift := 1, indexSide := 2 }

theorem hC : readRefGeomVals sB cLog cInp cOut = Except.ok sC := rfl

/-- Per-boundary loads of the single block of `cInfo1`. -/
def cBlock : Loads := ⟨⟨1, 4, 7⟩, ⟨2, 5, 8⟩, ⟨3, 6, 9⟩, ⟨10, 11, 12⟩⟩

/-- State after `__ReadForces` — the result of the first `Process` run. -/
noncomputable def sD : PState := addLoads sC cBlock

theorem hD : readForces sC cInfo1 = Except.ok sD := rfl

theorem hRun1 : Process cLog cInp cOut cInfo1 initState = Except.ok sD := by
  unfold Process
  rw [hA, ok_bind, hB, ok_bind, hC, ok_bind]
  exact hD

/-- Witness for `C5_derived_refs` on the concrete log `cLog`. -/
theorem C5_witness :
    sA.refDens = sA.refPres / (287 * sA.refTemp) ∧
      sA.refVmag = Real.sqrt (sA.refVels.x ^ 2 + sA.refVels.y ^ 2 + sA.refVels.z ^ 2) ∧
      sA.refMach = sA.refVmag / Real.sqrt (1.4 * 287 * sA.refTemp) :=
  C5_derived_refs cLog sA hA

/-!  Claim C7. -/

theorem refValsStep_refPres_miss {l : LogLine} (s : PState)
    (h : ¬(l.hasAeroPres = true ∧ l.toks.length = 3)) :
    (refValsStep s l).refPres = s.refPres := by
  have hb : (l.hasAeroPres && l.toks.length == 3) = false := by
    cases hA : l.hasAeroPres <;> cases hL : l.toks.length == 3 <;> simp_all
  unfold refValsStep setW setV setU setTemp setPres
  rw [hb]
  simp only [Bool.false_eq_true, if_false]
  split_ifs <;> rfl

theorem refValsStep_refTemp_miss {l : LogLine} (s : PState)
    (h : ¬(l.hasAeroTemp = true ∧ l.toks.length = 3)) :
    (refValsStep s l).refTemp = s.refTemp := by
  have hb : (l.hasAeroTemp && l.toks.length == 3) = false := by
    cases hA : l.hasAeroTemp <;> cases hL : l.toks.length == 3 <;> simp_all
  unfold refValsStep setW setV setU setTemp setPres
  rw [hb]
  simp only [Bool.false_eq_true, if_false]
  split_ifs <;> rfl

theorem refValsStep_velx_miss {l : LogLine} (s : PState)
    (h : ¬(l.hasAeroU = true ∧ l.toks.length = 3)) :
    (refValsStep s l).refVels.x = s.refVels.x := by
  have hb : (l.hasAeroU && l.toks.length == 3) = false := by
    cases hA : l.hasAeroU <;> cases hL : l.toks.length == 3 <;> simp_all
  unfold refValsStep setW setV setU setTemp setPres
  rw [hb]
  simp only [Bool.false_eq_true, if_false]
  split_ifs <;> rfl

theorem refValsStep_vely_miss {l : LogLine} (s : PState)
    (h : ¬(l.hasAeroV = true ∧ l.toks.length = 3)) :
    (refValsStep s l).refVels.y = s.refVels.y := by
  have hb : (l.hasAeroV && l.toks.length == 3) = false := by
    cases hA : l.hasAeroV <;> cases hL : l.toks.length == 3 <;> simp_all
  unfold refValsStep setW setV setU setTemp setPres
  rw [hb]
  simp only [Bool.false_eq_true, if_false]
  split_ifs <;> rfl

theorem refValsStep_velz_miss {l : LogLine} (s : PState)
    (h : ¬(l.hasAeroW = true ∧ l.toks.length = 3)) :
    (refValsStep s l).refVels.z = s.refVels.z := by
  have hb : (l.hasAeroW && l.toks.length == 3) = false := by
    cases hA : l.hasAeroW <;> cases hL : l.toks.length == 3 <;> simp_all
  unfold refValsStep setW setV setU setTemp setPres
  rw [hb]
  simp only [Bool.false_eq_true, if_false]
  split_ifs <;> rfl

theorem scan_refVmag_init (lines : List LogLine) :
    (lines.foldl refValsStep initState).refVmag = 0 := by
  have h2 : (lines.foldl refValsStep initState).refVmag = initState.refVmag :=
    foldl_preserve refValsStep (fun s => s.refVmag) lines initState
      (fun a _ s => (refValsStep_kept s a).2.1)
  rw [h2]
  rfl

/-- Counterexample to claim C7: on a run log in which no recognized token
ever appears (the empty log — every token is a "lenient miss"), the reader
does not complete: the temperature default `0.0` reaches the density
division `refPres/287.0/refTemp`, which raises `ZeroDivisionError`, and the
reader aborts via `exit(1)`. -/
theorem C7_counterexample : readRefVals initState [] = Except.error () := by
  have h1 : ¬(initState.refVmag + initState.refVels.x * initState.refVels.x
      + initState.refVels.y * initState.refVels.y
      + initState.refVels.z * initState.refVels.z < 0) := by
    norm_num [initState, Vec3.zero]
  have h2 : initState.refTemp = 0 := rfl
  show refValsFinish (List.foldl refValsStep initState []) = Except.error ()
  rw [show List.foldl refValsStep initState [] = initState from rfl]
  unfold refValsFinish
  rw [if_neg h1, if_pos h2]

/-- Claim C7 (amended): from the constructor state, the reader succeeds
exactly when the scanned temperature is positive — so a missing pressure or
velocity token never aborts and leaves its field at the default `0.0` — but
a missing (or zero, or negative) temperature always aborts the reader, with
`ZeroDivisionError`/`ValueError` in the derived-value computations. -/
theorem C7_lenient :
    ∀ lines : List LogLine,
      ((readRefVals initState lines).isOk = true ↔
        0 < (lines.foldl refValsStep initState).refTemp) ∧
      ((∀ l ∈ lines, ¬(l.hasAeroTemp = true ∧ l.toks.length = 3)) →
        readRefVals initState lines = Except.error ()) ∧
      (∀ st', readRefVals initState lines = Except.ok st' →
        ((∀ l ∈ lines, ¬(l.hasAeroPres = true ∧ l.toks.length = 3)) → st'.refPres = 0) ∧
        ((∀ l ∈ lines, ¬(l.hasAeroU = true ∧ l.toks.length = 3)) → st'.refVels.x = 0) ∧
        ((∀ l ∈ lines, ¬(l.hasAeroV = true ∧ l.toks.length = 3)) → st'.refVels.y = 0) ∧
        ((∀ l ∈ lines, ¬(l.hasAeroW = true ∧ l.toks.length = 3)) → st'.refVels.z = 0)) := by
  intro lines
  have hr : ¬((lines.foldl refValsStep initState).refVmag
      + (lines.foldl refValsStep initState).refVels.x
          * (lines.foldl refValsStep initState).refVels.x
      + (lines.foldl refValsStep initState).refVels.y
          * (lines.foldl refValsStep initState).refVels.y
      + (lines.foldl refValsStep initState).refVels.z
          * (lines.foldl refValsStep initState).refVels.z < 0) := by
    rw [scan_refVmag_init]
    have hx := mul_self_nonneg (lines.foldl refValsStep initState).refVels.x
    have hy := mul_self_nonneg (lines.foldl refValsStep initState).refVels.y
    have hz := mul_self_nonneg (lines.foldl refValsStep initState).refVels.z
    push_neg
    linarith
  have hiff : (readRefVals initState lines).isOk = true ↔
      0 < (lines.foldl refValsStep initState).refTemp := by
    show (refValsFinish (lines.foldl refValsStep initState)).isOk = true ↔ _
    unfold refValsFinish
    rw [if_neg hr]
    split_ifs with h2 h3
    · simp only [h2, Except.isOk, Except.toBool]
      simp
    · simp only [Except.isOk, Except.toBool, Bool.false_eq_true, false_iff, not_lt]
      linarith
    · simp only [Except.isOk, Except.toBool, true_iff]
      exact lt_of_le_of_ne (not_lt.mp h3) (Ne.symm h2)
  refine ⟨hiff, ?_, ?_⟩
  · intro hmiss
    have htz : (lines.foldl refValsStep initState).refTemp = 0 := by
      have h2 : (lines.foldl refValsStep initState).refTemp = initState.refTemp :=
        foldl_preserve refValsStep (fun s => s.refTemp) lines initState
          (fun a ha s => refValsStep_refTemp_miss s (hmiss a ha))
      rw [h2]
      rfl
    have : (readRefVals initState lines).isOk ≠ true := by
      intro hok
      rw [hiff, htz] at hok
      exact lt_irrefl 0 hok
    cases hres : readRefVals initState lines with
    | error e => cases e; rfl
    | ok s' => exact absurd (by rw [hres]; rfl) this
  · intro st' h
    obtain ⟨-, -, -, rfl⟩ := readRefVals_ok h
    refine ⟨?_, ?_, ?_, ?_⟩
    · intro hmiss
      have h2 : (lines.foldl refValsStep initState).refPres = initState.refPres :=
        foldl_preserve refValsStep (fun s => s.refPres) lines initState
          (fun a ha s => refValsStep_refPres_miss s (hmiss a ha))
      rw [show ({ lines.foldl refValsStep initState with
        refVmag := Real.sqrt ((lines.foldl refValsStep initState).refVmag
          + (lines.foldl refValsStep initState).refVels.x
              * (lines.foldl refValsStep initState).refVels.x
          + (lines.foldl refValsStep initState).refVels.y
              * (lines.foldl refValsStep initState).refVels.y
          + (lines.foldl refValsStep initState).refVels.z
              * (lines.foldl refValsStep initState).refVels.z)
        refDens := (lines.foldl refValsStep initState).refPres / 287
          / (lines.foldl refValsStep initState).refTemp
        refMach := Real.sqrt ((lines.foldl refValsStep initState).refVmag
          + (lines.foldl refValsStep initState).refVels.x
              * (lines.foldl refValsStep initState).refVels.x
          + (lines.foldl refValsStep initState).refVels.y
              * (lines.foldl refValsStep initState).refVels.y
          + (lines.foldl refValsStep initState).refVels.z
              * (lines.foldl refValsStep initState).refVels.z)
          / Real.sqrt (1.4 * 287 * (lines.foldl refValsStep initState).refTemp)
        } : PState).refPres
        = (lines.foldl refValsStep initState).refPres from rfl, h2]
      rfl
    · intro hmiss
      have h2 : (lines.foldl refValsStep initState).refVels.x = initState.refVels.x :=
        foldl_preserve refValsStep (fun s => s.refVels.x) lines initState
          (fun a ha s => refValsStep_velx_miss s (hmiss a ha))
      exact h2.trans rfl
    · intro hmiss
      have h2 : (lines.foldl refValsStep initState).refVels.y = initState.refVels.y :=
        foldl_preserve refValsStep (fun s => s.refVels.y) lines initState
          (fun a ha s => refValsStep_vely_miss s (hmiss a ha))
      exact h2.trans rfl
    · intro hmiss
      have h2 : (lines.foldl refValsStep initState).refVels.z = initState.refVels.z :=
        foldl_preserve refValsStep (fun s => s.refVels.z) lines initState
          (fun a ha s => refValsStep_velz_miss s (hmiss a ha))
      exact h2.trans rfl

/-- Witness for `C7_lenient` at the concrete log `cLog`, in which pressure
and velocity tokens never appear (and default to `0.0`) while the
temperature is present and positive, so the reader succeeds. -/
theorem C7_witness :
    (readRefVals initState cLog).isOk = true ∧
      sA.refPres = 0 ∧ sA.refVels.x = 0 ∧ sA.refVels.y = 0 ∧ sA.refVels.z = 0 := by
  have h := C7_lenient cLog
  have ht : (0 : ℝ) < (cLog.foldl refValsStep initState).refTemp := by
    rw [show (cLog.foldl refValsStep initState).refTemp = (300 : ℝ) from rfl]
    norm_num
  have h3 := h.2.2 sA hA
  exact ⟨h.1.mpr ht, h3.1 (by decide), h3.2.1 (by decide), h3.2.2.1 (by decide),
         h3.2.2.2 (by decide)⟩

/-!  Boundary-reader lemmas (claims C6 and C10). -/

theorem bcScan_append (all : List LogLine) :
    ∀ (rest : List LogLine) (sta : Nat) (acc : List Int),
      bcScan all rest sta acc = (bcScan all rest sta []).map (fun w => acc ++ w) := by
  intro rest
  induction rest with
  | nil =>
    intro sta acc
    simp [bcScan, Except.map]
  | cons l r ih =>
    intro sta acc
    unfold bcScan
    by_cases hns : l.hasNoSlip = true
    · simp only [hns, if_true]
      cases hidx : indexFrom all l sta with
      | none => simp [hidx, Except.map]
      | some i =>
        simp only [hidx]
        cases hw : pyGet all ((i : Int) - 2) with
        | none => simp [hw, Except.map]
        | some wl =>
          simp only [hw]
          cases ht : wl.toks.get? 1 with
          | none => simp [ht, Except.map]
          | some t =>
            simp only [ht]
            rw [ih (i + 1) (acc ++ [t.z]), ih (i + 1) ([] ++ [t.z])]
            cases bcScan all r (i + 1) [] <;> simp [Except.map]
    · simp only [hns, if_false]
      exact ih sta acc

theorem mbconsScan_idem (log : List LogLine) (d : Int) :
    mbconsScan log (mbconsScan log d) = mbconsScan log d := by
  unfold mbconsScan
  cases hf : log.find? (fun l => l.hasMbcons && l.toks.length == 3) with
  | none => rfl
  | some l =>
    cases ht : l.toks.get? 2 with
    | none => simp only [ht]
    | some t => simp only [ht]

theorem readBcInfos_ok {st : PState} {log : List LogLine} {s' : PState}
    (h : readBcInfos st log = Except.ok s') :
    ∃ w0, bcScan log log 0 [] = Except.ok w0 ∧
      s' = { st with numBounds := mbconsScan log st.numBounds,
                     noSlipWalls := st.noSlipWalls ++ w0 } := by
  unfold readBcInfos at h
  rw [bcScan_append log log 0 st.noSlipWalls] at h
  cases hb0 : bcScan log log 0 [] with
  | error e =>
    rw [hb0] at h
    exact Except.noConfusion h
  | ok w0 =>
    rw [hb0] at h
    simp only [Except.map, Except.ok.injEq] at h
    exact ⟨w0, rfl, h.symm⟩

theorem forcesStep_keeps {lines : List (List Tok)} {sta : Int} {s : PState} {a : Nat}
    {s' : PState} (h : forcesStep lines sta s a = Except.ok s') :
    (s'.numBounds, s'.noSlipWalls, s'.symmPlane) = (s.numBounds, s.noSlipWalls, s.symmPlane) := by
  unfold forcesStep at h
  split_ifs at h with hm
  · obtain ⟨c, hc, h2⟩ := exceptBind_ok h
    injection h2 with h3
    rw [← h3]
    rfl
  · injection h with h3
    rw [← h3]

theorem readForces_keeps {st : PState} {lines : List (List Tok)} {s' : PState}
    (h : readForces st lines = Except.ok s') :
    s'.numBounds = st.numBounds ∧ s'.noSlipWalls = st.noSlipWalls ∧
      s'.symmPlane = st.symmPlane := by
  unfold readForces at h
  have hp := foldlM_preserve (fun s : PState => (s.numBounds, s.noSlipWalls, s.symmPlane))
    (fun s a s' hs => forcesStep_keeps hs) _ _ _ h
  have h2 := congrArg Prod.snd hp
  exact ⟨congrArg Prod.fst hp, congrArg Prod.fst h2, congrArg Prod.snd h2⟩

theorem Vec3.subv_zero (a : Vec3) : a.subv Vec3.zero = a := by
  ext <;> simp [Vec3.subv, Vec3.zero]

theorem loadsOf_initState : loadsOf initState = ⟨Vec3.zero, Vec3.zero, Vec3.zero, Vec3.zero⟩ := rfl

/-!  The second `Process` run on the same object, over the same inputs. -/

/-- Scan result of the second `__ReadRefVals` run. -/
noncomputable def sMidA2 : PState := { sD with refTemp := 300 }

/-- State after the second `__ReadRefVals` run. -/
noncomputable def sA2 : PState :=
  { sMidA2 with
    refVmag := Real.sqrt (sMidA2.refVmag + sMidA2.refVels.x * sMidA2.refVels.x
      + sMidA2.refVels.y * sMidA2.refVels.y + sMidA2.refVels.z * sMidA2.refVels.z)
    refDens := sMidA2.refPres / 287 / sMidA2.refTemp
    refMach := Real.sqrt (sMidA2.refVmag + sMidA2.refVels.x * sMidA2.refVels.x
      + sMidA2.refVels.y * sMidA2.refVels.y + sMidA2.refVels.z * sMidA2.refVels.z)
      / Real.sqrt (1.4 * 287 * sMidA2.refTemp) }

theorem hA2 : readRefVals sD cLog = Except.ok sA2 := by
  have h0 : readRefVals sD cLog = refValsFinish sMidA2 := by
    unfold readRefVals
    rw [show cLog.foldl refValsStep sD = sMidA2 from rfl]
  rw [h0]
  exact refValsFinish_eval sMidA2
    (by exact (by positivity :
      (0:ℝ) ≤ Real.sqrt (0 + 0 * 0 + 0 * 0 + 0 * 0) + 0 * 0 + 0 * 0 + 0 * 0))
    (by exact (by norm_num : (0:ℝ) < 300))

/-- State after the second `__ReadBcInfos` run: the wall id 1 is appended a
second time. -/
noncomputable def sB2 : PState := { sA2 with numBounds := 1, noSlipWalls := [1, 1] }

theorem hB2 : readBcInfos sA2 cLog = Except.ok sB2 := rfl

/-- State after the second `__ReadRefGeomVals` run. -/
noncomputable def sC2 : PState :=
  { sB2 with SymmPlaneType := some SymmetryPlaneType.xyPlane,
             indexDrag := 0, indexLift := 1, indexSide := 2 }

theorem hC2 : readRefGeomVals sB2 cLog cInp cOut = Except.ok sC2 := rfl

/-- State after the second `__ReadForces` run: the block is accumulated on
top of the already-accumulated loads. -/
noncomputable def sD2 : PState := addLoads sC2 cBlock

theorem hD2 : readForces sC2 cInfo1 = Except.ok sD2 := rfl

theorem hRun2 : Process cLog cInp cOut cInfo1 sD = Except.ok sD2 := by
  unfold Process
  rw [hA2, ok_bind, hB2, ok_bind, hC2, ok_bind]
  exact hD2

/-- Counterexample to claim C6 (idempotence of `Process` on one parser
object): on a well-formed one-boundary case, the first run reports the
no-slip wall list `[1]`, but running `Process` again on the same object
yields `[1, 1]` — `__ReadBcInfos` appends to the existing list instead of
rebuilding it, so the second pass does not reproduce the first. -/
theorem C6_counterexample :
    (Process cLog cInp cOut cInfo1 initState >>= fun s1 =>
      Process cLog cInp cOut cInfo1 s1 >>= fun s2 =>
      Except.ok (s1.noSlipWalls, s2.noSlipWalls)) = Except.ok ([1], [1, 1]) := by
  rw [hRun1]
  rw [ok_bind]
  rw [hRun2]
  rw [ok_bind]
  exact rfl

/-- Claim C6 (amended): re-running `Process` on the same parser object over
unchanged inputs is not idempotent; when both passes succeed, the second
pass appends the wall list to itself and doubles every accumulated
force/moment component (the case directory itself is untouched — the model
is read-only).  A fresh parser per case is required to reproduce results. -/
theorem C6_amended :
    ∀ (log : List LogLine) (inp out : List GeomLine) (info1 : List (List Tok))
      (st1 st2 : PState),
      Process log inp out info1 initState = Except.ok st1 →
      Process log inp out info1 st1 = Except.ok st2 →
      st2.noSlipWalls = st1.noSlipWalls ++ st1.noSlipWalls ∧
      st2.force_tol = st1.force_tol.addv st1.force_tol ∧
      st2.force_inv = st1.force_inv.addv st1.force_inv ∧
      st2.force_vis = st1.force_vis.addv st1.force_vis ∧
      st2.moment = st1.moment.addv st1.moment := by
  intro log inp out info1 st1 st2 h1 h2
  unfold Process at h1 h2
  obtain ⟨a1, ha1, h1⟩ := exceptBind_ok h1
  obtain ⟨b1, hb1, h1⟩ := exceptBind_ok h1
  obtain ⟨c1, hc1, hd1⟩ := exceptBind_ok h1
  obtain ⟨a2, ha2, h2⟩ := exceptBind_ok h2
  obtain ⟨b2, hb2, h2⟩ := exceptBind_ok h2
  obtain ⟨c2, hc2, hd2⟩ := exceptBind_ok h2
  -- run 1
  obtain ⟨ka1n, ka1w, ka1l, -⟩ := readRefVals_keeps ha1
  obtain ⟨w0, hw0, rfl⟩ := readBcInfos_ok hb1
  obtain ⟨-, kc1n, kc1w, kc1l⟩ := geomFile_keeps hc1
  obtain ⟨kd1n, kd1w, -⟩ := readForces_keeps hd1
  have hw1 : st1.noSlipWalls = w0 := by
    rw [kd1w, kc1w]
    show a1.noSlipWalls ++ w0 = w0
    rw [ka1w]
    rfl
  have hn1 : st1.numBounds = mbconsScan log a1.numBounds := by
    rw [kd1n, kc1n]
  have hl1 : loadsOf c1 = loadsOf initState := by
    rw [kc1l, ← ka1l]
    rfl
  -- run 2
  obtain ⟨ka2n, ka2w, ka2l, -⟩ := readRefVals_keeps ha2
  obtain ⟨w0', hw0', rfl⟩ := readBcInfos_ok hb2
  obtain ⟨-, kc2n, kc2w, kc2l⟩ := geomFile_keeps hc2
  have hww : w0' = w0 := by
    rw [hw0] at hw0'
    injection hw0' with hww0
    exact hww0.symm
  have hw2 : c2.noSlipWalls = w0 ++ w0 := by
    rw [kc2w]
    show a2.noSlipWalls ++ w0' = w0 ++ w0
    rw [hww, ka2w, hw1]
  have hn2 : c2.numBounds = c1.numBounds := by
    rw [kc2n, kc1n]
    show mbconsScan log a2.numBounds = mbconsScan log a1.numBounds
    rw [ka2n, hn1, mbconsScan_idem]
  have hl2 : loadsOf c2 = loadsOf st1 := by
    rw [kc2l, ← ka2l]
    rfl
  -- the second force pass adds the same block contributions again
  have hshift := readForces_shift (t := c2) hd1 hn2
    (fun i h1i h2i => by
      rw [hw2, kc1w]
      show i ∈ w0 ++ w0 ↔ i ∈ a1.noSlipWalls ++ w0
      rw [ka1w]
      simp [List.mem_append, initState])
  rw [hd2] at hshift
  injection hshift with hst2
  have hload : loadsOf st2 = (loadsOf st1).addL ((loadsOf st1).subL (loadsOf initState)) := by
    rw [hst2, loadsOf_addLoads, hl2, hl1]
  constructor
  · rw [hst2, addLoads_noSlipWalls, hw2, hw1]
  · have hft := congrArg Loads.ft hload
    have hfi := congrArg Loads.fi hload
    have hfv := congrArg Loads.fv hload
    have hmo := congrArg Loads.mo hload
    simp only [loadsOf, Loads.addL, Loads.subL, initState, Vec3.subv_zero] at hft hfi hfv hmo
    exact ⟨hft, hfi, hfv, hmo⟩

/-- Witness for `C6_amended` on the concrete one-boundary case: walls
`[1] ++ [1]`, forces doubled. -/
theorem C6_witness :
    sD2.noSlipWalls = sD.noSlipWalls ++ sD.noSlipWalls ∧
      sD2.force_tol = sD.force_tol.addv sD.force_tol ∧
      sD2.force_inv = sD.force_inv.addv sD.force_inv ∧
      sD2.force_vis = sD.force_vis.addv sD.force_vis ∧
      sD2.moment = sD.moment.addv sD.moment :=
  C6_amended cLog cInp cOut cInfo1 sD sD2 hRun1 hRun2

/-- Witness for `C4_axis_assignment`: the concrete `xy`-plane geometry file
yields the `(0,1,2)` assignment, and the default `-99` assignment cannot
produce coefficients. -/
theorem C4_witness :
    tripleOf sC = (0, 1, 2) ∧
      (tripleOf sC = (0, 1, 2) ∨ tripleOf sC = (0, 2, 1)) ∧
      GetCoeffLift initState = Option.none := by
  refine ⟨?_, ?_, ?_⟩
  · exact (C4_axis_assignment.1 sB planeLineXY sC ⟨"xy", 0⟩ rfl rfl rfl).1 rfl
  · exact C4_axis_assignment.2.1 sB cInp sC rfl ⟨planeLineXY, by simp [cInp], rfl⟩
  · exact (C4_axis_assignment.2.2 initState rfl).1

/-- Claim C10: `__ReadRefGeomVals` assigns the detected orientation to the
differently named attribute `SymmPlaneType`, so the `symmPlane` attribute
set at construction keeps its default: (i) a processed plane line changes
`SymmPlaneType` (to the value matching its token) but leaves `symmPlane`
untouched; (ii) the whole geometry reader leaves `symmPlane` untouched;
(iii) after any successful extraction pass from the constructor state,
`symmPlane` still equals `SymmetryPlaneType.none`. -/
theorem C10_symmPlane_stale :
    (∀ (s : PState) (l : GeomLine) (s' : PState) (t : GeomTok),
        geomStep s l = Except.ok s' → l.hasPlane = true → l.toks.get? 1 = some t →
        s'.symmPlane = s.symmPlane ∧
        s'.SymmPlaneType = some (if t.s = "xy" then SymmetryPlaneType.xyPlane
                                 else SymmetryPlaneType.xzPlane)) ∧
    (∀ (st : PState) (lines : List GeomLine) (s' : PState),
        readRefGeomValsFile st lines = Except.ok s' → s'.symmPlane = st.symmPlane) ∧
    (∀ (log : List LogLine) (inp out : List GeomLine) (info1 : List (List Tok)) (s' : PState),
        Process log inp out info1 initState = Except.ok s' →
        s'.symmPlane = SymmetryPlaneType.none) := by
  refine ⟨?_, fun st lines s' h => (geomFile_keeps h).1, ?_⟩
  · intro s l s' t h hp ht
    unfold geomStep at h
    obtain ⟨m, hm, hplane⟩ := exceptBind_ok h
    obtain ⟨e1, e2, -, -, -, -⟩ := geomScalars_keeps hm
    obtain ⟨hxy, hnxy⟩ := planeKey_ok_true hplane hp ht
    by_cases hts : t.s = "xy"
    · rw [hxy hts, if_pos hts]
      exact ⟨e1, rfl⟩
    · rw [hnxy hts, if_neg hts]
      exact ⟨e1, rfl⟩
  · intro log inp out info1 s' h
    unfold Process at h
    obtain ⟨a1, ha1, h⟩ := exceptBind_ok h
    obtain ⟨b1, hb1, h⟩ := exceptBind_ok h
    obtain ⟨c1, hc1, hd⟩ := exceptBind_ok h
    obtain ⟨-, -, -, ka⟩ := readRefVals_keeps ha1
    obtain ⟨w0, hw0, rfl⟩ := readBcInfos_ok hb1
    have kc := (geomFile_keeps hc1).1
    obtain ⟨-, -, kd⟩ := readForces_keeps hd
    rw [kd, kc]
    show a1.symmPlane = SymmetryPlaneType.none
    rw [ka]
    rfl

/-- Witness for `C10_symmPlane_stale` on the concrete one-boundary case. -/
theorem C10_witness : sD.symmPlane = SymmetryPlaneType.none :=
  C10_symmPlane_stale.2.2 cLog cInp cOut cInfo1 sD hRun1

end SjtuAeroPost
